import Mathlib

/-!
Verification of the `fortiplugin-bundle-adapter` repository.

The development shallowly embeds:

* `src/babel/transform.ts` — the per-file Babel transform (import classifier,
  capture table, wrapper synthesizer).  The module is represented by its list
  of top-level statements (`Stmt`); the synthesized wrapper-prelude code is a
  small statement language (`WStmt`) together with an evaluator over JS-like
  values (`JSVal`).
* `src/runtime/create-factory.ts` — export picking, the factory-vs-component
  resolution state machine, and render-time prop merging.
* `src/runtime/create-resolver.ts` — config merging for `with(overrides)`.

String operations from the source (`replace`, `startsWith`, `includes`) are
modelled on the underlying character lists so that all definitions evaluate
inside the kernel.
-/

/-- A JavaScript-like runtime value.  Objects are insertion-ordered field
lists; functions are opaque tags (their call behaviour is supplied where a
call's outcome matters); symbols carry their description string. -/
inductive JSVal where
  | undefV : JSVal
  | jsNull : JSVal
  | boolV (b : Bool) : JSVal
  | num (n : Int) : JSVal
  | str (s : String) : JSVal
  | sym (name : String) : JSVal
  | obj (fields : List (String × JSVal)) : JSVal
  | func (tag : Nat) : JSVal
deriving Repr

/-- JS truthiness. -/
def truthy : JSVal → Bool
  | .undefV => false
  | .jsNull => false
  | .boolV b => b
  | .num n => n ≠ 0
  | .str s => s ≠ ""
  | .sym _ => true
  | .obj _ => true
  | .func _ => true

/-- `typeof v === "object"` (true for `null` and plain objects, false for
functions, symbols and primitives). -/
def typeofIsObject : JSVal → Bool
  | .jsNull => true
  | .obj _ => true
  | _ => false

/-- The `in` operator restricted to object operands (everywhere the sources
use it, the operand is guarded to be an object). -/
def hasKeyV : JSVal → String → Bool
  | .obj fs, k => fs.any (fun p => p.1 = k)
  | _, _ => false

/-- Property read `v[k]`, `undefined` when absent or not an object. -/
def getFieldV : JSVal → String → JSVal
  | .obj fs, k => (((fs.find? (fun p => p.1 = k)).map (fun p => p.2)).getD .undefV)
  | _, _ => .undefV

/-- `v == null` (loose equality with null: true for `null` and `undefined`). -/
def isNullish : JSVal → Bool
  | .undefV => true
  | .jsNull => true
  | _ => false

/-- `isCallable` from create-factory.ts: `typeof v === "function"`. -/
def isCallable : JSVal → Bool
  | .func _ => true
  | _ => false

/-- `isObject` from create-factory.ts: `!!v && typeof v === "object"`. -/
def isObjectV (v : JSVal) : Bool := truthy v && typeofIsObject v

/-!  ## Transform options (transform.ts lines 7–50) -/

/-- `onMissingDefault` policy. -/
inductive MissingDefault where
  | skip
  | returnNull
  | throwErr
deriving DecidableEq, Repr

/-- `FortiPrepTransformOptions` with the defaults of transform.ts applied
(`runtimeKey = "imports"`, `depsParam = "deps"`, `onMissingDefault = skip`). -/
structure TOptions where
  injectedIds : List String := []
  injectedPrefixes : List String := []
  runtimeKey : String := "imports"
  depsParam : String := "deps"
  onMissingDefault : MissingDefault := .skip
deriving Repr

/-- `id.startsWith(p)`, modelled on the character lists. -/
def strStartsWith (s p : String) : Bool := p.data.isPrefixOf s.data

/-- `shouldInject` (transform.ts lines 55–61): exact id match or prefix
match. -/
def shouldInject (id : String) (opts : TOptions) : Bool :=
  opts.injectedIds.contains id || opts.injectedPrefixes.any (fun p => strStartsWith id p)

/-!  ## Module AST -/

/-- An import specifier (`ImportDefaultSpecifier` / `ImportNamespaceSpecifier`
/ `ImportSpecifier`). -/
inductive ImportSpec where
  | dflt (localName : String)
  | ns (localName : String)
  | named (imported localName : String)
deriving DecidableEq, Repr

/-- An export specifier `{ local as exported }` of an
`ExportNamedDeclaration`. -/
structure ExpSpec where
  localName : String
  exported : String
deriving DecidableEq, Repr

/-- The declaration carried by an `ExportDefaultDeclaration`: an identifier
reference, a function/class declaration (optionally anonymous), or any other
expression. -/
inductive DefDecl where
  | ident (name : String)
  | funcD (name : Option String)
  | classD (name : Option String)
  | exprD (tag : Nat)
deriving DecidableEq, Repr

/-- A captured injected-import specifier (`CapturedImport`,
transform.ts lines 80–83). -/
inductive Capture where
  | dflt (localName : String)
  | ns (localName : String)
  | named (imported localName : String)
deriving DecidableEq, Repr

/-- Synthesized wrapper-prelude expressions: exactly the right-hand-side
shapes the synthesizer emits (transform.ts lines 89–117 and 223–283). -/
inductive WExpr where
  | var (n : String)
  | getIndex (base : WExpr) (key : String)
  | callUnwrap (arg : WExpr)
  | orEmpty (arg : WExpr)
deriving DecidableEq, Repr

/-- Synthesized wrapper-prelude statements: the `__imports` resolution, the
`__default` helper, plain `const` bindings, and the per-id named-capture
destructuring `const { imported: local, ... } = mod || {}`. -/
inductive WStmt where
  | importsInit (depsParam runtimeKey : String)
  | unwrapHelper
  | constDecl (name : String) (e : WExpr)
  | destructure (pats : List (String × String)) (modName : String)
deriving DecidableEq, Repr

/-- The factory's final return (transform.ts lines 285–290): `null`, the
binding name, or `name.default`. -/
inductive RetE where
  | retNull
  | retIdent (n : String)
  | retMemberDefault (n : String)
deriving DecidableEq, Repr

/-- A top-level module statement.  `factory` is the output-only exported
wrapper `export default function (deps) { prelude; body; return ret }`;
`funcD`/`classD`/`constHoist` are the plain declarations the default-export
visitor leaves or synthesizes in place; `other` is any other statement the
transform does not touch (carrying an identity tag). -/
inductive Stmt where
  | importDecl (source : String) (specs : List ImportSpec)
  | exportDefault (d : DefDecl)
  | exportNamed (hasDecl : Bool) (specs : List ExpSpec)
  | funcD (name : String)
  | classD (name : String)
  | constHoist (name : String) (tag : Nat)
  | other (tag : Nat)
  | factory (param : String) (prelude : List WStmt) (body : List Stmt) (ret : RetE)
deriving Repr

/-- `programHasDefaultExport` (transform.ts lines 63–78): an explicit default
export, or a named-export specifier whose exported name is `"default"`. -/
def programHasDefaultExport (body : List Stmt) : Bool :=
  body.any (fun s =>
    match s with
    | .exportDefault _ => true
    | .exportNamed _ specs => specs.any (fun sp => sp.exported = "default")
    | _ => false)

/-!  ## Wrapper synthesizer: emitted prelude (transform.ts lines 182–283) -/

/-- The sanitisation `importId.replace(/[^a-zA-Z0-9_$]/g, "_")`. -/
def sanitizeId (s : String) : String :=
  String.mk (s.data.map (fun c =>
    if (('a' ≤ c ∧ c ≤ 'z') ∨ ('A' ≤ c ∧ c ≤ 'Z') ∨ ('0' ≤ c ∧ c ≤ '9') ∨ c = '_' ∨ c = '$')
    then c else '_'))

/-- The wrapper's internal module binding name for an injected id:
`` `__m_${importId.replace(/[^a-zA-Z0-9_$]/g, "_")}` ``. -/
def modIdent (id : String) : String := "__m_" ++ sanitizeId id

/-- One pass over the captures of a single id (transform.ts lines 240–261):
default/namespace captures become `const` statements in order, named captures
are collected (in order) for the single trailing destructuring. -/
def emitCaptures (m : String) : List Capture → List WStmt × List (String × String)
  | [] => ([], [])
  | .dflt l :: r =>
      let p := emitCaptures m r
      (.constDecl l (.callUnwrap (.var m)) :: p.1, p.2)
  | .ns l :: r =>
      let p := emitCaptures m r
      (.constDecl l (.var m) :: p.1, p.2)
  | .named imp l :: r =>
      let p := emitCaptures m r
      (p.1, (imp, l) :: p.2)

/-- The statements emitted for one injected id (transform.ts lines 223–283):
the module binding `const __m_x = __imports["id"]`, the per-capture bindings,
then — iff any named captures exist — one destructuring statement. -/
def emitForId (id : String) (specs : List Capture) : List WStmt :=
  let m := modIdent id
  let p := emitCaptures m specs
  .constDecl m (.getIndex (.var "__imports") id) ::
    (p.1 ++ (if p.2.isEmpty then [] else [.destructure p.2 m]))

/-- The full wrapper prelude: `__imports` resolution, `__default` helper,
then the per-id blocks in first-capture order. -/
def wrapperPrelude (opts : TOptions) (injected : List (String × List Capture)) : List WStmt :=
  .importsInit opts.depsParam opts.runtimeKey :: .unwrapHelper ::
    (injected.map (fun p => emitForId p.1 p.2)).flatten

/-!  ## Evaluator for the emitted prelude -/

/-- The import-map resolution expression (transform.ts lines 89–117):
`deps !== null && typeof deps === "object" && key in deps ? deps[key]
: (deps || {})`. -/
def isJsNull : JSVal → Bool
  | .jsNull => true
  | _ => false

def makeImportMap (deps : JSVal) (runtimeKey : String) : JSVal :=
  if (!isJsNull deps) && typeofIsObject deps && hasKeyV deps runtimeKey
  then getFieldV deps runtimeKey
  else if truthy deps then deps else .obj []

/-- Semantics of the emitted `__default` helper (transform.ts lines 192–218):
`m && typeof m === "object" && "default" in m ? m.default : m`. -/
def unwrapDefault (m : JSVal) : JSVal :=
  if truthy m && typeofIsObject m && hasKeyV m "default" then getFieldV m "default" else m

/-- Variable environments: later bindings are consed to the front. -/
abbrev Env := List (String × JSVal)

/-- Variable lookup, `undefined` for unbound names. -/
def lookupEnv (env : Env) (n : String) : JSVal :=
  (((env.find? (fun p => p.1 = n)).map (fun p => p.2)).getD .undefV)

/-- Evaluation of emitted expressions.  `callUnwrap` applies the `__default`
helper's body directly (the helper is bound first in the prelude and the
theorems assume no user binding shadows it). -/
def evalExpr (env : Env) : WExpr → JSVal
  | .var n => lookupEnv env n
  | .getIndex b k => getFieldV (evalExpr env b) k
  | .callUnwrap a => unwrapDefault (evalExpr env a)
  | .orEmpty a =>
      let v := evalExpr env a
      if truthy v then v else .obj []

/-- Execution of one emitted statement. -/
def execStmt (env : Env) : WStmt → Env
  | .importsInit dp rk => ("__imports", makeImportMap (lookupEnv env dp) rk) :: env
  | .unwrapHelper => ("__default", .func 0) :: env
  | .constDecl n e => (n, evalExpr env e) :: env
  | .destructure pats m =>
      let v := evalExpr env (.orEmpty (.var m))
      pats.foldl (fun acc p => (p.2, getFieldV v p.1) :: acc) env

/-- Execution of a statement list. -/
def execStmts : Env → List WStmt → Env
  | env, [] => env
  | env, s :: r => execStmts (execStmt env s) r

/-!  ## The transform pass (transform.ts lines 122–429)

Babel invokes the plugin per file: `Program.enter` decides whether the file
is processed at all (`enabled`), the statement visitors run top-to-bottom
accumulating the per-file capture state, and `Program.exit` assembles the
final module.  The pass is modelled as a fold over the top-level statement
list; each visitor returns the updated state together with the statement's
residue in the module body (removed statements contribute `[]`,
replacements contribute the replacement). -/

/-- The per-file capture state (transform.ts lines 137–150). -/
structure TState where
  keptImports : List Stmt := []
  keptNamedExports : List Stmt := []
  injected : List (String × List Capture) := []
  defaultName : Option String := none
  returnDefaultProp : Bool := false
  uid : Nat := 0
deriving Repr

/-- `captureImport` (transform.ts lines 146–150): append the capture to the
id's list, keeping insertion order of ids (JS `Map` semantics). -/
def captureImport (inj : List (String × List Capture)) (id : String) (c : Capture) :
    List (String × List Capture) :=
  match inj with
  | [] => [(id, [c])]
  | (k, l) :: rest =>
      if k = id then (k, l ++ [c]) :: rest else (k, l) :: captureImport rest id c

/-- The capture recorded for one import specifier (transform.ts
lines 326–338). -/
def captureOf : ImportSpec → Capture
  | .dflt l => .dflt l
  | .ns l => .ns l
  | .named imp l => .named imp l

/-- The `ImportDeclaration` visitor (transform.ts lines 313–342): kept
ones are preserved verbatim (moved to `keptImports`), injected ones are
captured specifier-by-specifier; both are removed from the body. -/
def visitImport (opts : TOptions) (st : TState) (src : String) (specs : List ImportSpec) :
    TState :=
  if !shouldInject src opts then
    { st with keptImports := st.keptImports ++ [Stmt.importDecl src specs] }
  else
    { st with injected := specs.foldl (fun inj s => captureImport inj src (captureOf s)) st.injected }

/-- Babel's `generateUidIdentifier("defaultExport")`, modelled as a
counter-indexed fresh name. -/
def genUid (n : Nat) : String := "_defaultExport" ++ (if n = 0 then "" else toString n)

/-- The `ExportDefaultDeclaration` visitor (transform.ts lines 344–376).
Returns the new state and the statement's residue in the body:
an identifier default export is removed; a function/class declaration stays
as a plain declaration (given a fresh name when anonymous); any other
expression is hoisted into a fresh `const`.  Note the visitor only sets
`defaultName` — `returnDefaultProp` is left as-is. -/
def visitExportDefault (st : TState) (d : DefDecl) : TState × List Stmt :=
  match d with
  | .ident n => ({ st with defaultName := some n }, [])
  | .funcD (some n) => ({ st with defaultName := some n }, [Stmt.funcD n])
  | .funcD none =>
      let n := genUid st.uid
      ({ st with defaultName := some n, uid := st.uid + 1 }, [Stmt.funcD n])
  | .classD (some n) => ({ st with defaultName := some n }, [Stmt.classD n])
  | .classD none =>
      let n := genUid st.uid
      ({ st with defaultName := some n, uid := st.uid + 1 }, [Stmt.classD n])
  | .exprD tag =>
      let n := genUid st.uid
      ({ st with defaultName := some n, uid := st.uid + 1 }, [Stmt.constHoist n tag])

/-- The `ExportNamedDeclaration` visitor (transform.ts lines 378–426).
Default specifiers (`export { X as default }`) are filtered out, each
recording its local as the default binding; if no default specifier was
present, no default binding is recorded yet, and exactly one specifier
remains, the minified single-specifier fallback records that specifier's
local with `.default` access and clears the specifiers.  The statement is
kept in `keptNamedExports` iff it still has a declaration or specifiers,
and is removed from the body either way. -/
def visitExportNamed (st : TState) (hasDecl : Bool) (specs : List ExpSpec) : TState :=
  if specs.isEmpty then
    if hasDecl then
      { st with keptNamedExports := st.keptNamedExports ++ [Stmt.exportNamed hasDecl specs] }
    else st
  else
    let kept := specs.filter (fun sp => sp.exported ≠ "default")
    let defaultLocals := (specs.filter (fun sp => sp.exported = "default")).map
      (fun sp => sp.localName)
    -- each default specifier assigns `defaultExportLocalName`, so the last wins
    let st1 :=
      if defaultLocals.isEmpty then st
      else { st with defaultName := defaultLocals.getLast? }
    -- minified single-specifier fallback (the guard makes `kept.head?` a `some`)
    let fallback := defaultLocals.isEmpty && !st1.defaultName.isSome && (kept.length == 1)
    let st2 :=
      if fallback then
        { st1 with defaultName := kept.head?.map (fun sp => sp.localName),
                   returnDefaultProp := true }
      else st1
    let keptSpecs := if fallback then [] else kept
    if hasDecl || !keptSpecs.isEmpty then
      { st2 with keptNamedExports := st2.keptNamedExports ++ [Stmt.exportNamed hasDecl keptSpecs] }
    else st2

/-- One step of the traversal: dispatch a statement to its visitor; statements
with no visitor stay in the body untouched. -/
def visitStmt (opts : TOptions) (st : TState) : Stmt → TState × List Stmt
  | .importDecl src specs => (visitImport opts st src specs, [])
  | .exportDefault d => visitExportDefault st d
  | .exportNamed hasDecl specs => (visitExportNamed st hasDecl specs, [])
  | s => (st, [s])

/-- The full traversal: fold the visitors over the body, collecting the
residual (non-import, non-export) statements in order. -/
def runPass (opts : TOptions) : TState → List Stmt → TState × List Stmt
  | st, [] => (st, [])
  | st, s :: rest =>
      let p := visitStmt opts st s
      let q := runPass opts p.1 rest
      (q.1, p.2 ++ q.2)

/-- `Program.exit` (transform.ts lines 164–310): decide the missing-default
behaviour, then assemble kept imports, the exported factory (prelude +
residual body + return), and kept named exports. -/
def assembleProgram (opts : TOptions) (st : TState) (residue : List Stmt) :
    Except String (List Stmt) :=
  if st.defaultName = none ∧ opts.onMissingDefault = .throwErr then
    .error "PROBLEM!!, No known default function was found"
  else
    let ret :=
      match st.defaultName with
      | none => RetE.retNull
      | some n => if st.returnDefaultProp then RetE.retMemberDefault n else RetE.retIdent n
    .ok (st.keptImports ++
      [Stmt.factory opts.depsParam (wrapperPrelude opts st.injected) residue ret] ++
      st.keptNamedExports)

/-- The whole per-file transform: if the file has no default-export construct
and the policy is `skip`, the file is left untouched; otherwise the pass runs
and the program is reassembled. -/
def fortiTransform (opts : TOptions) (body : List Stmt) : Except String (List Stmt) :=
  if !programHasDefaultExport body && opts.onMissingDefault = .skip then .ok body
  else
    let p := runPass opts {} body
    assembleProgram opts p.1 p.2

/-!  ## Characterisation of the pass output (for the top-level-shape claim) -/

/-- Predicate for an import statement the transform keeps (source id not
injected). -/
def isKeptImport (opts : TOptions) : Stmt → Bool
  | .importDecl src _ => !shouldInject src opts
  | _ => false

/-- The processing of one named-export statement as a function of the
"some default binding recorded so far" flag only: returns the statement kept
for re-emission (if any) and the updated flag.  This mirrors
`visitExportNamed`, whose behaviour depends on `defaultName` only through
`Option.isSome`. -/
def processNamed (found : Bool) (hasDecl : Bool) (specs : List ExpSpec) :
    Option Stmt × Bool :=
  if specs.isEmpty then
    ((if hasDecl then some (.exportNamed hasDecl specs) else none), found)
  else
    let kept := specs.filter (fun sp => sp.exported ≠ "default")
    let hasDefaultSpec := !(specs.filter (fun sp => sp.exported = "default")).isEmpty
    let fallback := !hasDefaultSpec && !found && (kept.length == 1)
    let keptSpecs := if fallback then [] else kept
    ((if hasDecl || !keptSpecs.isEmpty then some (.exportNamed hasDecl keptSpecs) else none),
     if fallback then true else found || hasDefaultSpec)

/-- The kept named exports of a whole body, together with the threading of
the default-found flag through all default-recording statement visitors. -/
def namedResidue (found : Bool) : List Stmt → List Stmt
  | [] => []
  | .exportNamed hd specs :: r =>
      let p := processNamed found hd specs
      p.1.toList ++ namedResidue p.2 r
  | .exportDefault _ :: r => namedResidue true r
  | _ :: r => namedResidue found r

/-!  ## Concrete inputs used by the witness theorems -/

/-- Options of the test harness: `react` injected exactly, `@host/`
injected by prefix. -/
def shapeWitOpts : TOptions := { injectedIds := ["react"], injectedPrefixes := ["@host/"] }

/-- A small module: one kept import, one injected import, a default export
of an identifier, one plain statement, one named export. -/
def shapeWitBody : List Stmt :=
  [Stmt.importDecl "./local" [.dflt "L"],
   Stmt.importDecl "react" [.named "useState" "useState"],
   Stmt.exportDefault (.ident "App"),
   Stmt.other 0,
   Stmt.exportNamed false [⟨"Bar", "Bar"⟩]]

/-- The transform's output on `shapeWitBody`. -/
def shapeWitOut : List Stmt :=
  [Stmt.importDecl "./local" [.dflt "L"],
   Stmt.factory "deps"
     [WStmt.importsInit "deps" "imports",
      WStmt.unwrapHelper,
      WStmt.constDecl "__m_react" (WExpr.getIndex (WExpr.var "__imports") "react"),
      WStmt.destructure [("useState", "useState")] "__m_react"]
     [Stmt.other 0]
     (RetE.retIdent "App"),
   Stmt.exportNamed false [⟨"Bar", "Bar"⟩]]

/-- Options for the untouched-file witness (injected id present, `skip`
policy by default). -/
def skipWitOpts : TOptions := { injectedIds := ["react"] }

/-- A module with imports and named exports but no default-export-producing
construct. -/
def skipWitBody : List Stmt :=
  [Stmt.importDecl "react" [.dflt "React"],
   Stmt.other 1,
   Stmt.exportNamed false [⟨"A", "A"⟩, ⟨"B", "B"⟩]]

/-- A lone single-specifier named export followed by an explicit default
export of `X`. -/
def c3Body : List Stmt :=
  [Stmt.exportNamed false [⟨"Foo", "Foo"⟩], Stmt.exportDefault (.ident "X")]

/-- The same module shape, used for the last-wins/access-mode analysis. -/
def c4Body : List Stmt :=
  [Stmt.exportNamed false [⟨"Foo", "Foo"⟩], Stmt.exportDefault (.ident "X")]

/-- A capture state in which the minified fallback has recorded a binding
with `.default` access, before `export default X` overwrote the name. -/
def c4St : TState := { defaultName := some "X", returnDefaultProp := true }

/-- Options injecting every id that starts with `@host` (dot or slash). -/
def c10Opts : TOptions := { injectedPrefixes := ["@host"] }

/-- Two injected namespace imports whose ids sanitise to the same internal
binding name, plus a default export. -/
def c10Body : List Stmt :=
  [Stmt.importDecl "@host/ui" [.ns "A"],
   Stmt.importDecl "@host.ui" [.ns "B"],
   Stmt.exportDefault (.ident "A")]

/-- The factory prelude the transform emits for `c10Body`. -/
def c10Prelude : List WStmt :=
  [WStmt.importsInit "deps" "imports", WStmt.unwrapHelper,
   WStmt.constDecl "__m__host_ui" (WExpr.getIndex (WExpr.var "__imports") "@host/ui"),
   WStmt.constDecl "A" (WExpr.var "__m__host_ui"),
   WStmt.constDecl "__m__host_ui" (WExpr.getIndex (WExpr.var "__imports") "@host.ui"),
   WStmt.constDecl "B" (WExpr.var "__m__host_ui")]

/-!  ## Semantics of the per-id injected bindings -/

/-- The local name a capture binds. -/
def localOf : Capture → String
  | .dflt l => l
  | .ns l => l
  | .named _ l => l

/-- All local names bound by a capture list, in capture order. -/
def capturedLocals (specs : List Capture) : List String := specs.map localOf

/-- The value each capture's local receives when the id's module binding
holds `M`: default captures get `__default(M)`, namespace captures get `M`,
named captures get `(M || {})[imported]`. -/
def expectedVal (M : JSVal) : Capture → JSVal
  | .dflt _ => unwrapDefault M
  | .ns _ => M
  | .named imp _ => getFieldV (if truthy M then M else .obj []) imp

/-- The environment entries produced by the non-named capture `const`
statements, in emission order. -/
def declBindings (M : JSVal) : List Capture → List (String × JSVal)
  | [] => []
  | .dflt l :: r => (l, unwrapDefault M) :: declBindings M r
  | .ns l :: r => (l, M) :: declBindings M r
  | .named _ _ :: r => declBindings M r

/-- Recogniser for the destructuring statement. -/
def isDestructure : WStmt → Bool
  | .destructure _ _ => true
  | _ => false

/-- The environment after applying the synthesized factory for a one-id
capture table to the dependency map `{ imports: { id: { default: D,
named: N } } }` (default transform options). -/
def c2Env (id : String) (specs : List Capture) (D N : JSVal) : Env :=
  execStmts
    [("deps",
      JSVal.obj [("imports", JSVal.obj [(id, JSVal.obj [("default", D), ("named", N)])])])]
    (wrapperPrelude {} [(id, specs)])

/-- Captures of all three shapes for one id, as merged from several import
statements: a default specifier binding R, a named specifier binding the
module member named to x, a namespace specifier binding NS, and a named
specifier binding the member other to y. -/
def c2WitSpecs : List Capture :=
  [.dflt "R", .named "named" "x", .ns "NS", .named "other" "y"]

/-!  ## Runtime: create-factory.ts -/

/-- `unwrapNamespaceDefault` (create-factory.ts lines 68–72). -/
def unwrapNamespaceDefault (m : JSVal) : JSVal :=
  if !truthy m then m
  else if isObjectV m && hasKeyV m "default" then getFieldV m "default"
  else m

/-- `isReactElement` (create-factory.ts lines 57–66): `$$typeof` holds one of
the two React element symbols. -/
def isReactElement (v : JSVal) : Bool :=
  match getFieldV v "$$typeof" with
  | .sym s => s = "react.element" || s = "react.transitional.element"
  | _ => false

/-- `pickExport` (create-factory.ts lines 74–82). -/
def pickExport (m : JSVal) (exportName : String) : JSVal :=
  if !truthy m then .undefV
  else if isObjectV m && hasKeyV m exportName then getFieldV m exportName
  else if exportName = "default" then unwrapNamespaceDefault m
  else .undefV

/-- The export lookup of `createFactory` (lines 129–138): the picked export,
or the export-not-found error exactly when the picked value `== null`. -/
def exportLookup (m : JSVal) (exportName : String) : Except String JSVal :=
  let picked := pickExport m exportName
  if isNullish picked then .error ("Export " ++ exportName ++ " not found")
  else .ok picked

/-- `CreateFactoryOptions.mode`. -/
inductive RMode where
  | auto
  | factory
  | component
deriving DecidableEq, Repr

/-- The tail of createFactory's step 5 (lines 186–212) after the call's
outcome `resolved0` is known: optional `.default` unwrap, then the
element/null check deciding between resolved component, rollback, and the
factory-mode error. -/
def finishResolve (mode : RMode) (unwrapRD : Bool) (picked resolved0 : JSVal) :
    Except String (JSVal × Bool) :=
  let resolved :=
    if unwrapRD && isObjectV resolved0 && hasKeyV resolved0 "default"
    then getFieldV resolved0 "default" else resolved0
  let looksLikeWeCalledAComponent := isReactElement resolved || isNullish resolved
  if !looksLikeWeCalledAComponent then .ok (resolved, true)
  else if mode = RMode.factory then
    .error "Factory call did not return a component export"
  else .ok (picked, false)

/-- Step 5 of `createFactory` (lines 172–213): resolve factory vs component.
`callResult` is the settled outcome of `fn(deps)` (awaited when thenable);
`.error` models a throw.  Returns the component together with `wasFactory`,
or the propagated error. -/
def resolveComponent (mode : RMode) (tagged unwrapRD : Bool) (picked : JSVal)
    (callResult : Except String JSVal) : Except String (JSVal × Bool) :=
  if mode ≠ RMode.component && isCallable picked then
    let shouldTryCall := mode = RMode.factory || tagged || mode = RMode.auto
    if shouldTryCall then
      match callResult with
      | .error e =>
          if mode = RMode.factory then .error e
          else finishResolve mode unwrapRD picked .undefV
      | .ok r => finishResolve mode unwrapRD picked r
    else .ok (picked, false)
  else .ok (picked, false)

/-!  ## Records and JS object spread -/

/-- First entry for a key, if any. -/
def getRec? {α : Type} (l : List (String × α)) (k : String) : Option α :=
  (l.find? (fun p => p.1 = k)).map (fun p => p.2)

/-- Key-presence test. -/
def hasRec {α : Type} (l : List (String × α)) (k : String) : Bool :=
  l.any (fun p => p.1 = k)

/-- JS object spread `{...a, ...b}` over association lists with unique keys:
`a`'s keys in order (values overridden by `b` on collision), then `b`'s new
keys in order. -/
def jsSpread {α : Type} (a b : List (String × α)) : List (String × α) :=
  a.map (fun p => (p.1, match getRec? b p.1 with | some v => v | none => p.2))
    ++ b.filter (fun p => !hasRec a p.1)

/-- A JS object used as a property bag. -/
abbrev JsRecord := List (String × JSVal)

/-- Property read, `undefined` for missing keys. -/
def getRec (l : JsRecord) (k : String) : JSVal := (getRec? l k).getD .undefV

/-- Step 6 of `createFactory` (lines 216–219): effective host props
`{ ...(env.hostProps ?? {}), ...(hostPropsOverride ?? {}) }`. -/
def effectiveHostProps (envHostProps hostPropsOverride : Option JsRecord) : JsRecord :=
  jsSpread (envHostProps.getD []) (hostPropsOverride.getD [])

/-- Step 7 (lines 223–224): the props the render function materialises:
`{ ...(renderProps ?? {}), ...hostProps }`. -/
def renderMergedProps (envHostProps hostPropsOverride renderProps : Option JsRecord) :
    JsRecord :=
  jsSpread (renderProps.getD []) (effectiveHostProps envHostProps hostPropsOverride)

/-!  ## Runtime: create-resolver.ts -/

/-- `CreateFactoryEnv`: required `react`/`jsxRuntime`, optional maps. -/
structure FEnv where
  react : JSVal
  jsxRuntime : JSVal
  imports : Option JsRecord := none
  hostUrls : Option (List (String × String)) := none
  hostProps : Option JsRecord := none
  depsExtra : Option JsRecord := none
deriving Repr

/-- `Partial<CreateFactoryEnv>`: every field optionally present. -/
structure FEnvPatch where
  react : Option JSVal := none
  jsxRuntime : Option JSVal := none
  imports : Option JsRecord := none
  hostUrls : Option (List (String × String)) := none
  hostProps : Option JsRecord := none
  depsExtra : Option JsRecord := none
deriving Repr

/-- `mergeRecord(a, b) = {...(a ?? {}), ...(b ?? {})}` (create-resolver.ts
lines 27–29). -/
def mergeRecord {α : Type} (a b : Option (List (String × α))) : List (String × α) :=
  jsSpread (a.getD []) (b.getD [])

/-- `mergeEnv` (create-resolver.ts lines 31–44): spread of the patch over the
base, with `imports`/`hostUrls`/`depsExtra` deep-merged as maps — and
`hostProps` reset to the base's (comment in source: "hostProps handled
separately by resolver"). -/
def mergeEnv (base : FEnv) (patch : Option FEnvPatch) : FEnv :=
  match patch with
  | none => base
  | some p =>
      { react := p.react.getD base.react
        jsxRuntime := p.jsxRuntime.getD base.jsxRuntime
        imports := some (mergeRecord base.imports p.imports)
        hostUrls := some (mergeRecord base.hostUrls p.hostUrls)
        depsExtra := some (mergeRecord base.depsExtra p.depsExtra)
        hostProps := base.hostProps }

/-- `CreateFactoryOptions`, all fields optional. -/
structure FOptions where
  exportName : Option String := none
  mode : Option RMode := none
  unwrapReturnedDefault : Option Bool := none
  runtimeKey : Option String := none
  tagKey : Option String := none
  hostUrlsOverride : Option Bool := none
deriving DecidableEq, Repr

/-- `mergeOptions` (lines 46–51): `{...(base ?? {}), ...(patch ?? {})}`. -/
def mergeOptions (base patch : Option FOptions) : FOptions :=
  let b := base.getD {}
  let p := patch.getD {}
  { exportName := match p.exportName with | some x => some x | none => b.exportName
    mode := match p.mode with | some x => some x | none => b.mode
    unwrapReturnedDefault :=
      match p.unwrapReturnedDefault with | some x => some x | none => b.unwrapReturnedDefault
    runtimeKey := match p.runtimeKey with | some x => some x | none => b.runtimeKey
    tagKey := match p.tagKey with | some x => some x | none => b.tagKey
    hostUrlsOverride :=
      match p.hostUrlsOverride with | some x => some x | none => b.hostUrlsOverride }

/-- `CreateResolverConfig`. -/
structure RConfig where
  env : FEnv
  options : Option FOptions := none
  hostProps : Option JsRecord := none
deriving Repr

/-- `Required<CreateResolverConfig>` — a resolver's `defaults`
(create-resolver.ts lines 114–118). -/
structure RDefaults where
  env : FEnv
  options : FOptions
  hostProps : JsRecord
deriving Repr

/-- The defaulting `createPluginResolver` applies to its config. -/
def resolverDefaults (c : RConfig) : RDefaults :=
  { env := c.env, options := c.options.getD {}, hostProps := c.hostProps.getD [] }

/-- `ResolveOverrides`. -/
structure ROverrides where
  env : Option FEnvPatch := none
  options : Option FOptions := none
  hostProps : Option JsRecord := none
deriving Repr

/-- `with(overrides)` (create-resolver.ts lines 135–141): a brand-new
resolver built from the merged config. -/
def withOverrides (d : RDefaults) (o : ROverrides) : RDefaults :=
  resolverDefaults
    { env := mergeEnv d.env o.env
      options := some (mergeOptions (some d.options) o.options)
      hostProps := some (mergeRecord (some d.hostProps) o.hostProps) }

/-- Modelled from the claim's words, for comparison only: a shallow merge of
the env in which every patch field present — including `hostProps` — wins,
with the three maps deep-merged. -/
def envShallowMergeSpec (base : FEnv) (patch : Option FEnvPatch) : FEnv :=
  match patch with
  | none => base
  | some p =>
      { react := p.react.getD base.react
        jsxRuntime := p.jsxRuntime.getD base.jsxRuntime
        imports := some (mergeRecord base.imports p.imports)
        hostUrls := some (mergeRecord base.hostUrls p.hostUrls)
        depsExtra := some (mergeRecord base.depsExtra p.depsExtra)
        hostProps := match p.hostProps with | some h => some h | none => base.hostProps }

/-- A parent resolver whose env carries `hostProps = { p: 1 }`. -/
def c8Parent : RDefaults :=
  { env := { react := JSVal.func 1, jsxRuntime := JSVal.func 2,
             hostProps := some [("p", JSVal.num 1)] }
    options := {}
    hostProps := [] }

/-- An override that sets `env.hostProps = { p: 2 }`. -/
def c8Overrides : ROverrides :=
  { env := some { hostProps := some [("p", JSVal.num 2)] } }

/-- `visitImport` leaves named exports and the default binding untouched and
appends the statement to `keptImports` exactly when its source id is not
injected. -/
theorem visitImport_spec (opts : TOptions) (st : TState) (src : String)
    (specs : List ImportSpec) :
    (visitImport opts st src specs).keptNamedExports = st.keptNamedExports ∧
    (visitImport opts st src specs).defaultName = st.defaultName ∧
    (visitImport opts st src specs).keptImports =
      st.keptImports ++
        (if isKeptImport opts (.importDecl src specs) then [Stmt.importDecl src specs] else []) := by
  unfold visitImport isKeptImport
  split <;> simp_all

/-- `visitExportDefault` preserves the kept-import and kept-named-export
lists and always records a default binding. -/
theorem visitExportDefault_spec (st : TState) (d : DefDecl) :
    (visitExportDefault st d).1.keptNamedExports = st.keptNamedExports ∧
    (visitExportDefault st d).1.keptImports = st.keptImports ∧
    (visitExportDefault st d).1.defaultName.isSome = true := by
  cases d with
  | ident n => simp [visitExportDefault]
  | funcD n => cases n <;> simp [visitExportDefault]
  | classD n => cases n <;> simp [visitExportDefault]
  | exprD t => simp [visitExportDefault]

/-- `visitExportNamed` preserves kept imports, appends to the kept named
exports exactly the statement `processNamed` computes, and updates the
someness of the default binding exactly as `processNamed`'s flag. -/
theorem head?_isSome_of_length_one {α : Type} (l : List α) (h : (l.length == 1) = true) :
    l.head?.isSome = true := by
  cases l <;> simp_all

theorem isEmpty_map {α β : Type} (f : α → β) (l : List α) :
    (l.map f).isEmpty = l.isEmpty := by
  cases l <;> rfl

theorem visitExportNamed_spec (st : TState) (hd : Bool) (specs : List ExpSpec) :
    (visitExportNamed st hd specs).keptImports = st.keptImports ∧
    (visitExportNamed st hd specs).keptNamedExports
      = st.keptNamedExports ++ (processNamed st.defaultName.isSome hd specs).1.toList ∧
    (visitExportNamed st hd specs).defaultName.isSome
      = (processNamed st.defaultName.isSome hd specs).2 := by
  unfold visitExportNamed processNamed
  by_cases he : specs.isEmpty = true
  · simp only [he, if_true]
    cases hd <;> simp
  · simp only [he, if_false]
    rcases hfd : specs.filter (fun sp => sp.exported = "default") with _ | ⟨b, m⟩
    · rw [hfd]
      rcases hdn : st.defaultName with _ | d
      · by_cases hk : (specs.filter (fun sp => sp.exported ≠ "default")).length = 1
        · have hh : (specs.filter (fun sp => sp.exported ≠ "default")).head?.isSome
              = true := by
            rcases hcase : specs.filter (fun sp => sp.exported ≠ "default") with _ | ⟨x, t⟩
            · rw [hcase] at hk; simp at hk
            · rw [hcase]; simp
          simp at hh
          simp only [ne_eq, decide_not] at hk
          cases hd <;> simp [hdn, hk, hh]
        · simp only [ne_eq, decide_not] at hk
          cases hd <;>
            by_cases hke : (specs.filter (fun sp => sp.exported ≠ "default")).isEmpty = true <;>
              simp only [ne_eq, decide_not] at hke <;>
                simp [hdn, hk, hke]
      · cases hd <;>
          by_cases hke : (specs.filter (fun sp => sp.exported ≠ "default")).isEmpty = true <;>
            simp only [ne_eq, decide_not] at hke <;>
              simp [hdn, hke]
    · rw [hfd]
      cases hd <;>
        by_cases hke : (specs.filter (fun sp => sp.exported ≠ "default")).isEmpty = true <;>
          simp only [ne_eq, decide_not] at hke <;>
            simp [hke, List.getLast?_isSome]

/-- The pass collects exactly the non-injected import statements of the body,
in their original relative order. -/
theorem runPass_keptImports (opts : TOptions) (body : List Stmt) (st : TState) :
    (runPass opts st body).1.keptImports
      = st.keptImports ++ body.filter (isKeptImport opts) := by
  induction body generalizing st with
  | nil => simp [runPass]
  | cons s rest ih =>
      cases s with
      | importDecl src specs =>
          have h := visitImport_spec opts st src specs
          simp only [runPass, visitStmt]
          rw [ih, h.2.2]
          by_cases hki : isKeptImport opts (.importDecl src specs) = true <;>
            simp [hki, List.filter_cons]
      | exportDefault d =>
          have h := visitExportDefault_spec st d
          simp only [runPass, visitStmt]
          rw [ih, h.2.1]
          simp [isKeptImport, List.filter_cons]
      | exportNamed hd specs =>
          have h := visitExportNamed_spec st hd specs
          simp only [runPass, visitStmt]
          rw [ih, h.1]
          simp [isKeptImport, List.filter_cons]
      | funcD n => simp only [runPass, visitStmt]; rw [ih]; simp [isKeptImport]
      | classD n => simp only [runPass, visitStmt]; rw [ih]; simp [isKeptImport]
      | constHoist n t => simp only [runPass, visitStmt]; rw [ih]; simp [isKeptImport]
      | other t => simp only [runPass, visitStmt]; rw [ih]; simp [isKeptImport]
      | factory p pre inner ret =>
          simp only [runPass, visitStmt]; rw [ih]; simp [isKeptImport]

/-- The pass collects exactly the named exports `namedResidue` computes, in
their original relative order, threading the "default found so far" flag. -/
theorem runPass_keptNamed (opts : TOptions) (body : List Stmt) (st : TState) :
    (runPass opts st body).1.keptNamedExports
      = st.keptNamedExports ++ namedResidue st.defaultName.isSome body := by
  induction body generalizing st with
  | nil => simp [runPass, namedResidue]
  | cons s rest ih =>
      cases s with
      | importDecl src specs =>
          have h := visitImport_spec opts st src specs
          simp only [runPass, visitStmt, namedResidue]
          rw [ih, h.1, h.2.1]
      | exportDefault d =>
          have h := visitExportDefault_spec st d
          simp only [runPass, visitStmt, namedResidue]
          rw [ih, h.1, h.2.2]
      | exportNamed hd specs =>
          have h := visitExportNamed_spec st hd specs
          simp only [runPass, visitStmt, namedResidue]
          rw [ih, h.2.1, h.2.2]
          simp [List.append_assoc]
      | funcD n => simp only [runPass, visitStmt, namedResidue]; rw [ih]
      | classD n => simp only [runPass, visitStmt, namedResidue]; rw [ih]
      | constHoist n t => simp only [runPass, visitStmt, namedResidue]; rw [ih]
      | other t => simp only [runPass, visitStmt, namedResidue]; rw [ih]
      | factory p pre inner ret =>
          simp only [runPass, visitStmt, namedResidue]; rw [ih]

/-- C1: whenever the transform rewrites a file (a default-export construct
was detected, or the policy is not `skip`) and produces an output, that
output's top level is exactly: the kept (non-injected) imports — precisely
the input's non-injected import statements in their original relative
order — then one exported factory function, then the kept named exports as
computed in statement order by `namedResidue` (one output statement per
kept input named export, in the input's order). -/
theorem transform_top_level_shape (opts : TOptions) (body out : List Stmt)
    (henabled : programHasDefaultExport body = true ∨ opts.onMissingDefault ≠ .skip)
    (hok : fortiTransform opts body = .ok out) :
    ∃ pre inner ret,
      out = body.filter (isKeptImport opts)
            ++ [Stmt.factory opts.depsParam pre inner ret]
            ++ namedResidue false body := by
  unfold fortiTransform at hok
  have hcond : (!programHasDefaultExport body
      && decide (opts.onMissingDefault = MissingDefault.skip)) = false := by
    rcases henabled with h | h
    · simp [h]
    · simp [h]
  rw [hcond] at hok
  simp only [Bool.false_eq_true, if_false] at hok
  unfold assembleProgram at hok
  by_cases herr : ((runPass opts {} body).1.defaultName = none
      ∧ opts.onMissingDefault = MissingDefault.throwErr)
  · rw [if_pos herr] at hok; cases hok
  · rw [if_neg herr] at hok
    simp only [Except.ok.injEq] at hok
    subst hok
    have h1 := runPass_keptImports opts body {}
    have h2 := runPass_keptNamed opts body {}
    simp only [show ({} : TState).keptImports = [] from rfl,
      show ({} : TState).keptNamedExports = [] from rfl,
      show ({} : TState).defaultName = none from rfl, Option.isSome_none,
      List.nil_append] at h1 h2
    exact ⟨_, _, _, by rw [h1, h2]⟩

/-- Witness for C1 at a concrete module and concrete options. -/
theorem transform_top_level_shape_witness :
    ∃ pre inner ret,
      shapeWitOut = shapeWitBody.filter (isKeptImport shapeWitOpts)
        ++ [Stmt.factory shapeWitOpts.depsParam pre inner ret]
        ++ namedResidue false shapeWitBody :=
  transform_top_level_shape shapeWitOpts shapeWitBody shapeWitOut (Or.inl rfl) rfl

/-- C5: a file containing no default-export-producing construct (no
`export default`, no named specifier exported as `default`) is left
completely untouched by the transform under the default `skip` policy: the
output module equals the input module. -/
theorem skip_no_default_leaves_file_untouched (opts : TOptions) (body : List Stmt)
    (hnd : programHasDefaultExport body = false)
    (hskip : opts.onMissingDefault = .skip) :
    fortiTransform opts body = .ok body := by
  unfold fortiTransform
  simp [hnd, hskip]

/-- Witness for C5: a module with an injected import, a plain statement and
a two-specifier named export (no default) passes through unchanged. -/
theorem skip_no_default_leaves_file_untouched_witness :
    fortiTransform skipWitOpts skipWitBody = .ok skipWitBody :=
  skip_no_default_leaves_file_untouched skipWitOpts skipWitBody rfl rfl

/-- C3 counterexample: in `export { Foo }; export default X;` the minified
single-specifier fallback fires on the named export even though an
`export default` exists later in the file: the named export's specifiers are
cleared (the statement vanishes from the output — `namedResidue` is empty)
and the factory's return is `X.default`, showing the fallback guard looks
only at bindings recorded so far, not anywhere in the whole file. -/
theorem fallback_fires_despite_later_default :
    fortiTransform {} c3Body
      = .ok [Stmt.factory "deps" [WStmt.importsInit "deps" "imports", WStmt.unwrapHelper] []
          (RetE.retMemberDefault "X")]
      ∧ namedResidue false c3Body = [] := ⟨rfl, rfl⟩

/-- C3 amended: the minified single-specifier fallback is applied to a
named-export statement (setting the `.default` access flag) exactly when the
statement has specifiers, none of them is exported as `default`, no default
binding has been recorded by any rule on earlier statements, and exactly one
specifier remains after the default scan.  A default-producing construct
occurring later in the file does not prevent it. -/
theorem fallback_iff_no_prior_default (st : TState) (hd : Bool) (specs : List ExpSpec) :
    (visitExportNamed st hd specs).returnDefaultProp
      = (st.returnDefaultProp
         || (!specs.isEmpty
             && (specs.filter (fun sp => sp.exported = "default")).isEmpty
             && !st.defaultName.isSome
             && ((specs.filter (fun sp => sp.exported ≠ "default")).length == 1))) := by
  unfold visitExportNamed
  by_cases he : specs.isEmpty = true
  · cases hd <;> simp [he]
  · simp only [he, if_false]
    rcases hfd : specs.filter (fun sp => sp.exported = "default") with _ | ⟨b, m⟩
    · rw [hfd]
      rcases hdn : st.defaultName with _ | d
      · by_cases hk : (specs.filter (fun sp => sp.exported ≠ "default")).length = 1
        · simp only [ne_eq, decide_not] at hk
          cases hrp : st.returnDefaultProp <;> cases hd <;> simp [he, hdn, hk]
        · simp only [ne_eq, decide_not] at hk
          cases hrp : st.returnDefaultProp <;> cases hd <;>
            by_cases hke : (specs.filter (fun sp => sp.exported ≠ "default")).isEmpty = true <;>
              simp only [ne_eq, decide_not] at hke <;>
                simp [he, hdn, hk, hke, hrp]
      · cases hrp : st.returnDefaultProp <;> cases hd <;>
          by_cases hke : (specs.filter (fun sp => sp.exported ≠ "default")).isEmpty = true <;>
            simp only [ne_eq, decide_not] at hke <;>
              simp [he, hdn, hke, hrp]
    · rw [hfd]
      cases hrp : st.returnDefaultProp <;> cases hd <;>
        by_cases hke : (specs.filter (fun sp => sp.exported ≠ "default")).isEmpty = true <;>
          simp only [ne_eq, decide_not] at hke <;>
            simp [he, hke, hrp]

/-- C4 counterexample: in `export { Foo }; export default X;` the fallback
runs first (recording `.default` access), and the later `export default X`
overwrites only the name — the emitted factory returns `X.default`, not `X`,
so the recorded binding after `export default X` is not `(X, direct)`. -/
theorem export_default_return_not_direct :
    fortiTransform {} c4Body
      = .ok [Stmt.factory "deps" [WStmt.importsInit "deps" "imports", WStmt.unwrapHelper] []
          (RetE.retMemberDefault "X")]
      ∧ RetE.retMemberDefault "X" ≠ RetE.retIdent "X" := ⟨rfl, by decide⟩

/-- C4 amended: the state holds at most one binding name (an
`Option String`); `export default X` overwrites the name (last-wins) but
leaves the access mode untouched, so the factory's final return is `X` when
no earlier rule set `.default` access and `X.default` when one did. -/
theorem export_default_last_wins_keeps_mode :
    (∀ (st : TState) (n : String),
      (visitExportDefault st (.ident n)).1.defaultName = some n
      ∧ (visitExportDefault st (.ident n)).1.returnDefaultProp = st.returnDefaultProp)
    ∧ (∀ (opts : TOptions) (st : TState) (residue : List Stmt) (n : String),
        st.defaultName = some n →
        assembleProgram opts st residue = .ok (st.keptImports
          ++ [Stmt.factory opts.depsParam (wrapperPrelude opts st.injected) residue
               (if st.returnDefaultProp then RetE.retMemberDefault n else RetE.retIdent n)]
          ++ st.keptNamedExports)) := by
  constructor
  · intro st n
    simp [visitExportDefault]
  · intro opts st residue n hsome
    unfold assembleProgram
    rw [hsome]
    simp

/-- Witness for the amended C4 theorem: with the fallback's `.default` mode
already set and the name overwritten to `X`, assembly returns `X.default`. -/
theorem export_default_last_wins_keeps_mode_witness :
    assembleProgram {} c4St []
      = .ok (c4St.keptImports
          ++ [Stmt.factory (TOptions.depsParam {}) (wrapperPrelude {} c4St.injected) []
               (if c4St.returnDefaultProp then RetE.retMemberDefault "X" else RetE.retIdent "X")]
          ++ c4St.keptNamedExports) :=
  export_default_last_wins_keeps_mode.2 {} c4St [] "X" rfl

/-- C10: the sanitisation of injected ids into internal binding names is not
injective: `"@host/ui"` and `"@host.ui"` are distinct ids that both map to
`__m__host_ui`; on a file importing from both, the emitted factory body
declares `const __m__host_ui` twice, and the captures of both ids reference
that single shared binding name. -/
theorem modIdent_collision_duplicate_const :
    modIdent "@host/ui" = "__m__host_ui"
    ∧ modIdent "@host.ui" = "__m__host_ui"
    ∧ "@host/ui" ≠ "@host.ui"
    ∧ fortiTransform c10Opts c10Body
        = .ok [Stmt.factory "deps" c10Prelude [] (RetE.retIdent "A")]
    ∧ ((c10Prelude.filter (fun s =>
          match s with
          | WStmt.constDecl n _ => n == "__m__host_ui"
          | _ => false)).length = 2) :=
  ⟨by decide, by decide, by decide, rfl, by decide⟩

/-!  ## Evaluation lemmas for the emitted prelude -/

theorem lookupEnv_cons (k : String) (v : JSVal) (env : Env) (n : String) :
    lookupEnv ((k, v) :: env) n = if k = n then v else lookupEnv env n := by
  by_cases h : k = n <;> simp [lookupEnv, List.find?_cons, h]

theorem execStmts_append (a b : List WStmt) (env : Env) :
    execStmts env (a ++ b) = execStmts (execStmts env a) b := by
  induction a generalizing env with
  | nil => rfl
  | cons s r ih =>
      rw [List.cons_append]
      exact ih (execStmt env s)

theorem lookupEnv_append_of_not_key (xs env : Env) (l : String)
    (h : l ∉ xs.map Prod.fst) :
    lookupEnv (xs ++ env) l = lookupEnv env l := by
  induction xs with
  | nil => rfl
  | cons p r ih =>
      simp only [List.map_cons, List.mem_cons] at h
      push_neg at h
      rcases p with ⟨k, v⟩
      rw [List.cons_append, lookupEnv_cons, if_neg (Ne.symm h.1)]
      exact ih h.2

theorem lookupEnv_append_of_mem (xs : Env) (l : String) (v : JSVal)
    (hmem : (l, v) ∈ xs) (hnd : (xs.map Prod.fst).Nodup) (env : Env) :
    lookupEnv (xs ++ env) l = v := by
  induction xs with
  | nil => cases hmem
  | cons p r ih =>
      rcases p with ⟨k, w⟩
      simp only [List.map_cons, List.nodup_cons] at hnd
      rcases List.mem_cons.mp hmem with heq | hr
      · cases heq
        rw [List.cons_append, lookupEnv_cons, if_pos rfl]
      · have hkl : k ≠ l := by
          intro hkl
          exact hnd.1 (hkl ▸ List.mem_map.mpr ⟨(l, v), hr, rfl⟩)
        rw [List.cons_append, lookupEnv_cons, if_neg hkl]
        exact ih hr hnd.2

theorem foldl_cons_eq_reverse_map {α : Type} (pats : List α) (g : α → String × JSVal)
    (env : Env) :
    pats.foldl (fun acc p => g p :: acc) env = (pats.map g).reverse ++ env := by
  induction pats generalizing env with
  | nil => rfl
  | cons p r ih =>
      simp only [List.foldl_cons, List.map_cons, List.reverse_cons, ih,
        List.append_assoc, List.singleton_append]

theorem emitCaptures_fst_only_const (m : String) (specs : List Capture) :
    ∀ s ∈ (emitCaptures m specs).1, isDestructure s = false := by
  induction specs with
  | nil => intro s hs; cases hs
  | cons c r ih =>
      cases c <;> simp only [emitCaptures] <;> intro s hs
      · rcases List.mem_cons.mp hs with h | h
        · rw [h]; rfl
        · exact ih s h
      · rcases List.mem_cons.mp hs with h | h
        · rw [h]; rfl
        · exact ih s h
      · exact ih s hs

theorem declBindings_keys_perm (M : JSVal) (m : String) (specs : List Capture) :
    ((declBindings M specs).map Prod.fst ++ (emitCaptures m specs).2.map Prod.snd).Perm
      (capturedLocals specs) := by
  induction specs with
  | nil => simp [declBindings, emitCaptures, capturedLocals]
  | cons c r ih =>
      cases c with
      | dflt l =>
          simp only [declBindings, emitCaptures, List.map_cons, List.cons_append,
            capturedLocals, localOf]
          exact (ih.cons l)
      | ns l =>
          simp only [declBindings, emitCaptures, List.map_cons, List.cons_append,
            capturedLocals, localOf]
          exact (ih.cons l)
      | named imp l =>
          simp only [declBindings, emitCaptures, List.map_cons, capturedLocals, localOf]
          exact List.perm_middle.trans (ih.cons l)

theorem wrapperPrelude_single (opts : TOptions) (id : String) (specs : List Capture) :
    wrapperPrelude opts [(id, specs)]
      = WStmt.importsInit opts.depsParam opts.runtimeKey :: WStmt.unwrapHelper ::
          emitForId id specs := by
  simp [wrapperPrelude]

/-- Executing the non-named capture statements extends the environment by
`declBindings` (in reverse, because later bindings are consed on). -/
theorem execStmts_emitCaptures (m : String) (M : JSVal) (specs : List Capture) :
    ∀ env : Env, lookupEnv env m = M →
      (∀ l ∈ capturedLocals specs, l ≠ m) →
      execStmts env (emitCaptures m specs).1 = (declBindings M specs).reverse ++ env := by
  induction specs with
  | nil => intro env hM hl; simp [emitCaptures, declBindings, execStmts]
  | cons c r ih =>
      intro env hM hl
      cases c with
      | dflt l =>
          have hlm : l ≠ m := hl l (List.mem_cons_self _ _)
          have hrest : ∀ x ∈ capturedLocals r, x ≠ m := fun x hx =>
            hl x (List.mem_cons_of_mem _ hx)
          have henv' : lookupEnv ((l, unwrapDefault M) :: env) m = M := by
            rw [lookupEnv_cons, if_neg hlm]; exact hM
          simp only [emitCaptures, execStmts, execStmt, evalExpr, declBindings,
            List.reverse_cons, List.append_assoc, List.singleton_append]
          rw [hM, ih ((l, unwrapDefault M) :: env) henv' hrest]
      | ns l =>
          have hlm : l ≠ m := hl l (List.mem_cons_self _ _)
          have hrest : ∀ x ∈ capturedLocals r, x ≠ m := fun x hx =>
            hl x (List.mem_cons_of_mem _ hx)
          have henv' : lookupEnv ((l, M) :: env) m = M := by
            rw [lookupEnv_cons, if_neg hlm]; exact hM
          simp only [emitCaptures, execStmts, execStmt, evalExpr, declBindings,
            List.reverse_cons, List.append_assoc, List.singleton_append]
          rw [hM, ih ((l, M) :: env) henv' hrest]
      | named imp l =>
          have hrest : ∀ x ∈ capturedLocals r, x ≠ m := fun x hx =>
            hl x (List.mem_cons_of_mem _ hx)
          simp only [emitCaptures, declBindings]
          exact ih env hM hrest

/-- Executing the whole per-id block of the synthesized factory: the module
binding, the non-named bindings, and (when present) the destructuring. -/
theorem execStmts_emitForId (id : String) (specs : List Capture) (M : JSVal) (env : Env)
    (himp : lookupEnv env "__imports" = JSVal.obj [(id, M)])
    (htr : truthy M = true)
    (hm : ∀ l ∈ capturedLocals specs, l ≠ modIdent id) :
    execStmts env (emitForId id specs)
      = ((emitCaptures (modIdent id) specs).2.map
          (fun q => (q.2, getFieldV M q.1))).reverse
        ++ (declBindings M specs).reverse
        ++ ((modIdent id, M) :: env) := by
  have hfield : getFieldV (JSVal.obj [(id, M)]) id = M := by
    simp [getFieldV]
  have hmne : modIdent id ∉ capturedLocals specs := fun hmem => (hm _ hmem) rfl
  unfold emitForId
  simp only [execStmts, execStmt, evalExpr]
  rw [himp, hfield]
  have hlook1 : lookupEnv ((modIdent id, M) :: env) (modIdent id) = M := by
    rw [lookupEnv_cons, if_pos rfl]
  rw [execStmts_append,
    execStmts_emitCaptures (modIdent id) M specs ((modIdent id, M) :: env) hlook1 hm]
  by_cases hemp : (emitCaptures (modIdent id) specs).2.isEmpty = true
  · have h2 : (emitCaptures (modIdent id) specs).2 = [] := by
      rwa [List.isEmpty_iff] at hemp
    rw [if_pos hemp, h2]
    simp [execStmts]
  · rw [if_neg hemp]
    have hmkeys : modIdent id ∉ ((declBindings M specs).reverse.map Prod.fst) := by
      rw [List.map_reverse, List.mem_reverse]
      intro hmemdb
      have : modIdent id ∈ ((declBindings M specs).map Prod.fst
          ++ (emitCaptures (modIdent id) specs).2.map Prod.snd) :=
        List.mem_append_left _ hmemdb
      exact hmne ((declBindings_keys_perm M (modIdent id) specs).mem_iff.mp this)
    have hlook2 : lookupEnv ((declBindings M specs).reverse ++ ((modIdent id, M) :: env))
        (modIdent id) = M := by
      rw [lookupEnv_append_of_not_key _ _ _ hmkeys, hlook1]
    simp only [execStmts, execStmt, evalExpr, hlook2, htr, if_true]
    rw [foldl_cons_eq_reverse_map]
    simp [List.append_assoc]

theorem mem_declBindings_dflt (M : JSVal) (specs : List Capture) (l : String)
    (h : Capture.dflt l ∈ specs) : (l, unwrapDefault M) ∈ declBindings M specs := by
  induction specs with
  | nil => cases h
  | cons c r ih =>
      rcases List.mem_cons.mp h with heq | hr
      · rw [← heq]; simp [declBindings]
      · cases c <;> simp [declBindings] <;> first
          | exact Or.inr (ih hr)
          | exact ih hr

theorem mem_declBindings_ns (M : JSVal) (specs : List Capture) (l : String)
    (h : Capture.ns l ∈ specs) : (l, M) ∈ declBindings M specs := by
  induction specs with
  | nil => cases h
  | cons c r ih =>
      rcases List.mem_cons.mp h with heq | hr
      · rw [← heq]; simp [declBindings]
      · cases c <;> simp [declBindings] <;> first
          | exact Or.inr (ih hr)
          | exact ih hr

theorem mem_emitCaptures_named (m : String) (specs : List Capture) (imp l : String)
    (h : Capture.named imp l ∈ specs) : (imp, l) ∈ (emitCaptures m specs).2 := by
  induction specs with
  | nil => cases h
  | cons c r ih =>
      rcases List.mem_cons.mp h with heq | hr
      · rw [← heq]; simp [emitCaptures]
      · cases c <;> simp [emitCaptures] <;> first
          | exact Or.inr (ih hr)
          | exact ih hr

/-- The full environment after applying the synthesized one-id factory to
`{ imports: { id: { default: D, named: N } } }`. -/
theorem c2Env_eq (id : String) (specs : List Capture) (D N : JSVal)
    (hm : ∀ l ∈ capturedLocals specs, l ≠ modIdent id) :
    c2Env id specs D N
      = ((emitCaptures (modIdent id) specs).2.map
          (fun q => (q.2, getFieldV (JSVal.obj [("default", D), ("named", N)]) q.1))).reverse
        ++ (declBindings (JSVal.obj [("default", D), ("named", N)]) specs).reverse
        ++ ((modIdent id, JSVal.obj [("default", D), ("named", N)])
            :: ("__default", JSVal.func 0)
            :: ("__imports", JSVal.obj [(id, JSVal.obj [("default", D), ("named", N)])])
            :: [("deps",
                JSVal.obj [("imports",
                  JSVal.obj [(id, JSVal.obj [("default", D), ("named", N)])])])]) := by
  unfold c2Env
  rw [wrapperPrelude_single]
  have h0 : execStmts
      [("deps",
        JSVal.obj [("imports", JSVal.obj [(id, JSVal.obj [("default", D), ("named", N)])])])]
      (WStmt.importsInit (TOptions.depsParam {}) (TOptions.runtimeKey {})
        :: WStmt.unwrapHelper :: emitForId id specs)
    = execStmts
      (("__default", JSVal.func 0)
        :: ("__imports", JSVal.obj [(id, JSVal.obj [("default", D), ("named", N)])])
        :: [("deps",
            JSVal.obj [("imports", JSVal.obj [(id, JSVal.obj [("default", D), ("named", N)])])])])
      (emitForId id specs) := rfl
  rw [h0, execStmts_emitForId id specs (JSVal.obj [("default", D), ("named", N)]) _ ?himp rfl hm]
  case himp =>
    rfl

/-- C2: applying the synthesized factory for any capture list under one id
(any combination of default/namespace/named captures, as merged from one or
several import statements) to the dependency map
`{ imports: { id: { default: D, named: N } } }` binds every Default-captured
local to `D` (via the `__default` unwrap), every Namespace-captured local to
the whole module value, and every `named → local` capture to `N`; moreover
all named captures are emitted as exactly one destructuring statement. -/
theorem injected_capture_bindings
    (id : String) (specs : List Capture) (D N : JSVal)
    (hnd : (capturedLocals specs).Nodup)
    (hm : ∀ l ∈ capturedLocals specs, l ≠ modIdent id) :
    (∀ l, Capture.dflt l ∈ specs → lookupEnv (c2Env id specs D N) l = D)
    ∧ (∀ l, Capture.ns l ∈ specs →
        lookupEnv (c2Env id specs D N) l = JSVal.obj [("default", D), ("named", N)])
    ∧ (∀ l, Capture.named "named" l ∈ specs → lookupEnv (c2Env id specs D N) l = N)
    ∧ ((emitForId id specs).filter isDestructure).length
        = (if (emitCaptures (modIdent id) specs).2.isEmpty then 0 else 1) := by
  have hperm := declBindings_keys_perm (JSVal.obj [("default", D), ("named", N)])
    (modIdent id) specs
  have hnd2 := hperm.nodup_iff.mpr hnd
  rw [List.nodup_append] at hnd2
  obtain ⟨hndDb, hndNn, hdisj⟩ := hnd2
  have hAkeys : (((emitCaptures (modIdent id) specs).2.map
      (fun q => (q.2, getFieldV (JSVal.obj [("default", D), ("named", N)]) q.1))).map
        Prod.fst)
      = (emitCaptures (modIdent id) specs).2.map Prod.snd := by
    rw [List.map_map]; rfl
  refine ⟨?_, ?_, ?_, ?_⟩
  · intro l hmem
    rw [c2Env_eq id specs D N hm, List.append_assoc]
    have hmemdb := mem_declBindings_dflt (JSVal.obj [("default", D), ("named", N)]) specs l hmem
    have hkey : l ∈ (declBindings (JSVal.obj [("default", D), ("named", N)]) specs).map
        Prod.fst := List.mem_map.mpr ⟨_, hmemdb, rfl⟩
    have hnotA : l ∉ (((emitCaptures (modIdent id) specs).2.map
        (fun q => (q.2, getFieldV (JSVal.obj [("default", D), ("named", N)]) q.1))).reverse.map
          Prod.fst) := by
      rw [List.map_reverse, List.mem_reverse, hAkeys]
      exact fun hin => hdisj hkey hin
    rw [lookupEnv_append_of_not_key _ _ _ hnotA]
    exact lookupEnv_append_of_mem _ _ _ (List.mem_reverse.mpr hmemdb)
      (by rw [List.map_reverse]; exact List.nodup_reverse.mpr hndDb) _
  · intro l hmem
    rw [c2Env_eq id specs D N hm, List.append_assoc]
    have hmemdb := mem_declBindings_ns (JSVal.obj [("default", D), ("named", N)]) specs l hmem
    have hkey : l ∈ (declBindings (JSVal.obj [("default", D), ("named", N)]) specs).map
        Prod.fst := List.mem_map.mpr ⟨_, hmemdb, rfl⟩
    have hnotA : l ∉ (((emitCaptures (modIdent id) specs).2.map
        (fun q => (q.2, getFieldV (JSVal.obj [("default", D), ("named", N)]) q.1))).reverse.map
          Prod.fst) := by
      rw [List.map_reverse, List.mem_reverse, hAkeys]
      exact fun hin => hdisj hkey hin
    rw [lookupEnv_append_of_not_key _ _ _ hnotA]
    exact lookupEnv_append_of_mem _ _ _ (List.mem_reverse.mpr hmemdb)
      (by rw [List.map_reverse]; exact List.nodup_reverse.mpr hndDb) _
  · intro l hmem
    rw [c2Env_eq id specs D N hm, List.append_assoc]
    have hmemnn := mem_emitCaptures_named (modIdent id) specs "named" l hmem
    have hmemA : (l, getFieldV (JSVal.obj [("default", D), ("named", N)]) "named")
        ∈ (emitCaptures (modIdent id) specs).2.map
          (fun q => (q.2, getFieldV (JSVal.obj [("default", D), ("named", N)]) q.1)) :=
      List.mem_map.mpr ⟨("named", l), hmemnn, rfl⟩
    have hndA : (((emitCaptures (modIdent id) specs).2.map
        (fun q => (q.2, getFieldV (JSVal.obj [("default", D), ("named", N)]) q.1))).reverse.map
          Prod.fst).Nodup := by
      rw [List.map_reverse, hAkeys]
      exact List.nodup_reverse.mpr hndNn
    exact lookupEnv_append_of_mem _ _ _ (List.mem_reverse.mpr hmemA) hndA _
  · have hfil : (emitCaptures (modIdent id) specs).1.filter isDestructure = [] := by
      rw [List.filter_eq_nil_iff]
      intro s hs
      rw [emitCaptures_fst_only_const (modIdent id) specs s hs]
      simp
    unfold emitForId
    simp only [List.filter_cons, List.filter_append, hfil]
    by_cases hemp : (emitCaptures (modIdent id) specs).2.isEmpty = true
    · rw [if_pos hemp, if_pos hemp]
      simp [isDestructure]
    · rw [if_neg hemp, if_neg hemp]
      simp [isDestructure]

/-- Witness for C2: for `import R, { named as x } from "@host/ui"`,
`import * as NS from "@host/ui"` and `import { other as y } from "@host/ui"`
merged under one id, applying the factory to
`{ imports: { "@host/ui": { default: "D", named: "N" } } }` gives
`R = "D"`, `NS = the module object`, and `x = "N"`. -/
theorem injected_capture_bindings_witness :
    lookupEnv (c2Env "@host/ui" c2WitSpecs (JSVal.str "D") (JSVal.str "N")) "R"
      = JSVal.str "D"
    ∧ lookupEnv (c2Env "@host/ui" c2WitSpecs (JSVal.str "D") (JSVal.str "N")) "NS"
      = JSVal.obj [("default", JSVal.str "D"), ("named", JSVal.str "N")]
    ∧ lookupEnv (c2Env "@host/ui" c2WitSpecs (JSVal.str "D") (JSVal.str "N")) "x"
      = JSVal.str "N" :=
  ⟨(injected_capture_bindings "@host/ui" c2WitSpecs (JSVal.str "D") (JSVal.str "N")
      (by decide) (by decide)).1 "R" (by decide),
   (injected_capture_bindings "@host/ui" c2WitSpecs (JSVal.str "D") (JSVal.str "N")
      (by decide) (by decide)).2.1 "NS" (by decide),
   (injected_capture_bindings "@host/ui" c2WitSpecs (JSVal.str "D") (JSVal.str "N")
      (by decide) (by decide)).2.2.1 "x" (by decide)⟩

/-!  ## Lemmas about `jsSpread` -/

theorem getRec?_cons {α : Type} (p : String × α) (r : List (String × α)) (k : String) :
    getRec? (p :: r) k = if p.1 = k then some p.2 else getRec? r k := by
  by_cases h : p.1 = k
  · rw [if_pos h]
    unfold getRec?
    rw [List.find?_cons_of_pos _ (by simp [h])]
    rfl
  · rw [if_neg h]
    unfold getRec?
    rw [List.find?_cons_of_neg _ (by simp [h])]

theorem hasRec_eq_isSome {α : Type} (l : List (String × α)) (k : String) :
    hasRec l k = (getRec? l k).isSome := by
  induction l with
  | nil => rfl
  | cons p r ih =>
      rw [getRec?_cons]
      by_cases h : p.1 = k
      · simp [hasRec, List.any_cons, h]
      · simp only [hasRec, List.any_cons, h, decide_eq_true_eq, if_neg h]
        simpa [hasRec] using ih

theorem getRec?_append {α : Type} (xs ys : List (String × α)) (k : String) :
    getRec? (xs ++ ys) k
      = match getRec? xs k with
        | some v => some v
        | none => getRec? ys k := by
  induction xs with
  | nil => rfl
  | cons p r ih =>
      rw [List.cons_append, getRec?_cons, getRec?_cons]
      by_cases h : p.1 = k
      · rw [if_pos h, if_pos h]
      · rw [if_neg h, if_neg h, ih]

theorem getRec?_map_ow {α : Type} (a b : List (String × α)) (k : String) :
    getRec? (a.map (fun p => (p.1, match getRec? b p.1 with | some v => v | none => p.2))) k
      = match getRec? a k with
        | some v => some (match getRec? b k with | some w => w | none => v)
        | none => none := by
  induction a with
  | nil => rfl
  | cons p r ih =>
      rw [List.map_cons, getRec?_cons, getRec?_cons]
      by_cases h : p.1 = k
      · rw [if_pos h, if_pos h, ← h]
      · rw [if_neg h, if_neg h, ih]

theorem getRec?_filter_keep {α : Type} (a b : List (String × α)) (k : String)
    (h : hasRec a k = false) :
    getRec? (b.filter (fun p => !hasRec a p.1)) k = getRec? b k := by
  induction b with
  | nil => rfl
  | cons p r ih =>
      rw [List.filter_cons]
      by_cases hp : p.1 = k
      · have hkeep : (!hasRec a p.1) = true := by rw [hp, h]; rfl
        rw [if_pos hkeep, getRec?_cons, getRec?_cons, if_pos hp, if_pos hp]
      · cases hh : (!hasRec a p.1)
        · rw [if_neg Bool.false_ne_true, ih, getRec?_cons, if_neg hp]
        · rw [if_pos rfl, getRec?_cons, getRec?_cons, if_neg hp, if_neg hp, ih]

theorem getRec?_filter_drop {α : Type} (a b : List (String × α)) (k : String)
    (h : hasRec a k = true) :
    getRec? (b.filter (fun p => !hasRec a p.1)) k = none := by
  induction b with
  | nil => rfl
  | cons p r ih =>
      rw [List.filter_cons]
      by_cases hp : p.1 = k
      · have hdrop : (!hasRec a p.1) = false := by rw [hp, h]; rfl
        rw [hdrop, if_neg Bool.false_ne_true, ih]
      · cases hh : (!hasRec a p.1)
        · rw [if_neg Bool.false_ne_true, ih]
        · rw [if_pos rfl, getRec?_cons, if_neg hp, ih]

/-- Entry-wise behaviour of the JS spread: a key present in `b` takes `b`'s
value, otherwise `a`'s. -/
theorem getRec?_jsSpread {α : Type} (a b : List (String × α)) (k : String) :
    getRec? (jsSpread a b) k
      = match getRec? b k with
        | some v => some v
        | none => getRec? a k := by
  unfold jsSpread
  rw [getRec?_append, getRec?_map_ow]
  cases hh : hasRec a k
  · have ha : getRec? a k = none := by
      rcases hcase : getRec? a k with _ | v
      · rfl
      · rw [hasRec_eq_isSome, hcase] at hh; simp at hh
    rw [ha, getRec?_filter_keep a b k hh]
    cases hb : getRec? b k <;> simp
  · have ha : ∃ v, getRec? a k = some v := by
      rcases hcase : getRec? a k with _ | v
      · rw [hasRec_eq_isSome, hcase] at hh; simp at hh
      · exact ⟨v, rfl⟩
    obtain ⟨v, hv⟩ := ha
    rw [hv, getRec?_filter_drop a b k hh]
    cases hb : getRec? b k <;> simp

/-- C7: the render function's props are `{...callerProps, ...hostProps}` with
`hostProps = {...env.hostProps, ...hostPropsOverride}`: a key present in the
effective host props always takes the host value, any other key takes the
caller value; in particular `render({a:1,b:2})` under `env.hostProps={b:3}`
yields element props `{a:1,b:3}`. -/
theorem render_prop_merge_host_wins :
    (∀ (envHostProps hostPropsOverride renderProps : Option JsRecord) (k : String),
      getRec (renderMergedProps envHostProps hostPropsOverride renderProps) k
        = if hasRec (effectiveHostProps envHostProps hostPropsOverride) k
          then getRec (effectiveHostProps envHostProps hostPropsOverride) k
          else getRec (renderProps.getD []) k)
    ∧ renderMergedProps (some [("b", JSVal.num 3)]) none
        (some [("a", JSVal.num 1), ("b", JSVal.num 2)])
      = [("a", JSVal.num 1), ("b", JSVal.num 3)] := by
  constructor
  · intro eh ho rp k
    unfold renderMergedProps getRec
    rw [getRec?_jsSpread]
    rcases hb : getRec? (effectiveHostProps eh ho) k with _ | v
    · rw [if_neg (by rw [hasRec_eq_isSome, hb]; exact Bool.false_ne_true)]
    · rw [if_pos (by rw [hasRec_eq_isSome, hb]; rfl)]
  · rfl

/-- C6: when the picked export is callable and calling it throws, `auto`
mode swallows the error and rolls back to the original export as the
component with `wasFactory = false`, while `factory` mode propagates the
error to the caller. -/
theorem factory_call_error_modes (tagged unwrapRD : Bool) (picked : JSVal) (e : String)
    (hcall : isCallable picked = true) :
    resolveComponent RMode.auto tagged unwrapRD picked (.error e) = .ok (picked, false)
    ∧ resolveComponent RMode.factory tagged unwrapRD picked (.error e) = .error e := by
  constructor <;>
    simp [resolveComponent, finishResolve, hcall, isNullish, isReactElement, getFieldV,
      isObjectV, truthy, typeofIsObject]

/-- Witness for C6 at a concrete callable export and error. -/
theorem factory_call_error_modes_witness :
    resolveComponent RMode.auto false true (JSVal.func 7) (.error "boom")
      = .ok (JSVal.func 7, false)
    ∧ resolveComponent RMode.factory false true (JSVal.func 7) (.error "boom")
      = .error "boom" :=
  factory_call_error_modes false true (JSVal.func 7) "boom" rfl

/-- C9: with export name `"default"`, a non-null module object without a
`"default"` key is itself picked (no export-not-found error) and, being
non-callable, becomes the component with `wasFactory = false`; the
export-not-found error is raised exactly when the picked value is null or
undefined. -/
theorem pickExport_default_module_fallback :
    (∀ fields : List (String × JSVal), hasKeyV (JSVal.obj fields) "default" = false →
        exportLookup (JSVal.obj fields) "default" = .ok (JSVal.obj fields))
    ∧ (∀ (fields : List (String × JSVal)) (mode : RMode) (tagged u : Bool)
        (cr : Except String JSVal),
        resolveComponent mode tagged u (JSVal.obj fields) cr
          = .ok (JSVal.obj fields, false))
    ∧ (∀ (m : JSVal) (name : String),
        (∃ e, exportLookup m name = .error e) ↔ isNullish (pickExport m name) = true) := by
  refine ⟨?_, ?_, ?_⟩
  · intro fields hnk
    simp [exportLookup, pickExport, unwrapNamespaceDefault, hnk, isObjectV, truthy,
      typeofIsObject, isNullish]
  · intro fields mode tagged u cr
    simp [resolveComponent, isCallable]
  · intro m name
    by_cases hnl : isNullish (pickExport m name) = true <;>
      simp [exportLookup, hnl]

/-- Witness for C9: a module `{ x: 5 }` is picked whole under the name
`default` and becomes the component; a module whose `default` key holds
`null` raises the export-not-found error. -/
theorem pickExport_default_module_fallback_witness :
    exportLookup (JSVal.obj [("x", JSVal.num 5)]) "default"
      = .ok (JSVal.obj [("x", JSVal.num 5)])
    ∧ resolveComponent RMode.auto false true (JSVal.obj [("x", JSVal.num 5)])
        (.ok JSVal.undefV) = .ok (JSVal.obj [("x", JSVal.num 5)], false)
    ∧ (∃ e, exportLookup (JSVal.obj [("default", JSVal.jsNull)]) "default" = .error e) :=
  ⟨pickExport_default_module_fallback.1 [("x", JSVal.num 5)] rfl,
   pickExport_default_module_fallback.2.1 [("x", JSVal.num 5)] RMode.auto false true
     (.ok JSVal.undefV),
   (pickExport_default_module_fallback.2.2 (JSVal.obj [("default", JSVal.jsNull)])
     "default").mpr rfl⟩

/-- C8 counterexample: an override setting `env.hostProps = {p: 2}` over a
parent with `env.hostProps = {p: 1}` does NOT shallow-merge: the child keeps
the parent's `{p: 1}`, differing from the claimed merge result. -/
theorem with_env_hostProps_not_merged :
    (withOverrides c8Parent c8Overrides).env.hostProps = some [("p", JSVal.num 1)]
    ∧ (envShallowMergeSpec c8Parent.env c8Overrides.env).hostProps
        = some [("p", JSVal.num 2)]
    ∧ (withOverrides c8Parent c8Overrides).env
        ≠ envShallowMergeSpec c8Parent.env c8Overrides.env := by
  refine ⟨rfl, rfl, ?_⟩
  intro h
  have h2 := congrArg FEnv.hostProps h
  rw [show (withOverrides c8Parent c8Overrides).env.hostProps = some [("p", JSVal.num 1)]
      from rfl,
    show (envShallowMergeSpec c8Parent.env c8Overrides.env).hostProps
        = some [("p", JSVal.num 2)] from rfl] at h2
  simp at h2

/-- C8 amended: `with(overrides)` builds a brand-new resolver (the parent,
being a pure value, is unchanged) whose top-level `hostProps` and `options`
shallow-merge the override over the parent (entry-wise for `hostProps`,
override winning) and whose env shallow-merges every patch field except
`hostProps` — `env.hostProps` is always kept from the parent; the
`imports`/`hostUrls`/`depsExtra` maps are deep-merged entry-wise with
override entries winning. -/
theorem withOverrides_merge_spec :
    (∀ (d : RDefaults) (o : ROverrides),
      (withOverrides d o).hostProps = jsSpread d.hostProps (o.hostProps.getD [])
      ∧ (withOverrides d o).options = mergeOptions (some d.options) o.options
      ∧ (withOverrides d o).env = mergeEnv d.env o.env
      ∧ (∀ k, getRec? ((withOverrides d o).hostProps) k
          = match getRec? (o.hostProps.getD []) k with
            | some v => some v
            | none => getRec? d.hostProps k))
    ∧ (∀ (base : FEnv), mergeEnv base none = base)
    ∧ (∀ (base : FEnv) (p : FEnvPatch),
        (mergeEnv base (some p)).hostProps = base.hostProps
        ∧ (mergeEnv base (some p)).react = p.react.getD base.react
        ∧ (mergeEnv base (some p)).jsxRuntime = p.jsxRuntime.getD base.jsxRuntime
        ∧ (mergeEnv base (some p)).imports
            = some (jsSpread (base.imports.getD []) (p.imports.getD []))
        ∧ (mergeEnv base (some p)).hostUrls
            = some (jsSpread (base.hostUrls.getD []) (p.hostUrls.getD []))
        ∧ (mergeEnv base (some p)).depsExtra
            = some (jsSpread (base.depsExtra.getD []) (p.depsExtra.getD []))
        ∧ (∀ k, getRec? ((mergeEnv base (some p)).imports.getD []) k
            = match getRec? (p.imports.getD []) k with
              | some v => some v
              | none => getRec? (base.imports.getD []) k)) := by
  refine ⟨?_, ?_, ?_⟩
  · intro d o
    refine ⟨rfl, rfl, rfl, ?_⟩
    intro k
    rw [show (withOverrides d o).hostProps = jsSpread d.hostProps (o.hostProps.getD [])
      from rfl]
    have hx := getRec?_jsSpread d.hostProps (o.hostProps.getD []) k
    rcases hcase : getRec? (o.hostProps.getD []) k with _ | v <;>
      rw [hcase] at hx <;> simpa [hcase] using hx
  · intro base; rfl
  · intro base p
    refine ⟨rfl, rfl, rfl, rfl, rfl, rfl, ?_⟩
    intro k
    rw [show (mergeEnv base (some p)).imports.getD []
        = jsSpread (base.imports.getD []) (p.imports.getD []) from rfl]
    have hx := getRec?_jsSpread (base.imports.getD []) (p.imports.getD []) k
    rcases hcase : getRec? (p.imports.getD []) k with _ | v <;>
      rw [hcase] at hx <;> simpa [hcase] using hx
